import Mathlib

/-!
Verification of the realtime voice-chat client
(repository `wrong-by-default`, frontend sources).

The development shallowly embeds the parts of the code the claims are
about:

* the event reconciler of
  `src/frontend/src/hooks/useRealtimeConnection.ts` (`handleServerEvent`
  and the state it mutates),
* the connection state machine of
  `src/frontend/src/hooks/useRealtimeConnection/index.ts`
  (`connect`, `disconnect`, the connection-state-change handler, the
  45-second timeout callback) together with `cleanupWebRTC` of
  `src/frontend/src/hooks/useRealtimeConnection/webrtc.ts`,
* the HTTP-429 error-message extraction of `establishConnection` in
  `src/frontend/src/hooks/useRealtimeConnection/webrtc.ts`,
* `formatResetTime` of
  `src/frontend/src/hooks/useRealtimeConnection/usage.ts`.

Modelling conventions, used throughout:

* Wall-clock reads (`Date.now()`) become an explicit `now : Nat`
  argument; every event is processed at some clock value.
* Message ids of the wire shape `"<role>-<timestamp>"` are modelled as a
  structured pair `MsgId` of the role and the embedded millisecond
  timestamp, rendered by `MsgId.render`.  All ids in the system are
  constructed by the code itself in exactly this shape, and
  `parseInt(msg.id.split("-")[1] || "0")` applied to such an id
  recovers exactly the stored timestamp, so the structured form is an
  exact model of the string round trip.
* Possibly-absent JSON fields become `Option` values.  JavaScript
  truthiness of a string field (`undefined`, `null` and `""` are falsy)
  is `jsTruthy`.
* A JavaScript `Map` becomes an association list with insertion-order
  keys (`mapSet` replaces in place or appends, `mapGet` finds, and
  `mapDelete` removes the key).
-/

/-- JavaScript truthiness of a possibly-absent string field:
`undefined` and the empty string are falsy. -/
def jsTruthy : Option String → Bool
  | none => false
  | some s => s != ""

/-- Association-list model of a JavaScript `Map`: `set` replaces the
value of an existing key in place, otherwise appends. -/
def mapSet (m : List (String × Nat)) (k : String) (v : Nat) : List (String × Nat) :=
  match m with
  | [] => [(k, v)]
  | (k', v') :: rest => if k' == k then (k, v) :: rest else (k', v') :: mapSet rest k v

/-- Association-list model of `Map.get`. -/
def mapGet (m : List (String × Nat)) (k : String) : Option Nat :=
  match m with
  | [] => none
  | (k', v') :: rest => if k' == k then some v' else mapGet rest k

/-- Association-list model of `Map.delete`. -/
def mapDelete (m : List (String × Nat)) (k : String) : List (String × Nat) :=
  m.filter (fun p => p.1 != k)

/-- Message roles recognised by the client. -/
inductive Role where
  | user
  | assistant
deriving DecidableEq, Repr

/-- Structured model of a message id `"<role>-<timestamp>"`:
the role that appears as the id's first segment and the embedded
millisecond timestamp that appears as its suffix. -/
structure MsgId where
  role : Role
  ts : Nat
deriving DecidableEq, Repr

/-- The string rendered onto the wire for an id, `"<role>-<ts>"`. -/
def MsgId.render (i : MsgId) : String :=
  (match i.role with
    | Role.user => "user"
    | Role.assistant => "assistant") ++ "-" ++ toString i.ts

/-- `TranscriptMessage` of `src/lib/mockTranscript.ts` as used by the
hook: an id, a role and mutable text content. -/
structure TranscriptMessage where
  id : MsgId
  role : Role
  content : String
deriving DecidableEq, Repr

/-- One content part of a `response.done` output item
(`{ type?, transcript?, text? }`). -/
structure ContentPart where
  partType : Option String
  transcript : Option String
  text : Option String
deriving DecidableEq, Repr

/-- One output item of a `response.done` envelope
(`{ type?, role?, content? }`). -/
structure OutputItem where
  itemType : Option String
  itemRole : Option String
  content : Option (List ContentPart)
deriving DecidableEq, Repr

/-- The structured server events destructured by `handleServerEvent`,
one constructor per recognised `type` discriminator, carrying exactly
the fields the handler reads.  `unknownEvent` stands for every other
inbound event shape. -/
inductive ServerEvent where
  | conversationItemAdded (itemRole : Option String) (itemId : Option String)
  | inputAudioTranscriptionCompleted (transcript : Option String) (itemId : Option String)
  | inputAudioTranscriptionDelta
  | outputAudioTranscriptDelta (delta : Option String)
  | outputAudioTranscriptDone (transcript : Option String)
  | responseDone (output : Option (List OutputItem))
  | conversationItemCreated (itemRole : Option String) (firstContentText : Option String)
  | unknownEvent
deriving DecidableEq, Repr

/-- The reconciler state mutated by `handleServerEvent`: the transcript
(`state.messages`), `currentAssistantMessageIdRef` and
`pendingUserMessagesRef` (item id -> capture timestamp; the stored
record's `itemId` field always equals its key, so only the timestamp is
kept). -/
structure ReconcilerState where
  messages : List TranscriptMessage
  currentAssistantMessageId : Option MsgId
  pendingUserMessages : List (String × Nat)
deriving DecidableEq, Repr

/-- The `for` loop of the user-transcription branch: index of the first
assistant message whose id-embedded timestamp is strictly greater than
`u`; the list's length when there is none. -/
def findInsertIndex (u : Nat) : List TranscriptMessage → Nat
  | [] => 0
  | m :: rest =>
      if m.role == Role.assistant && decide (u < m.id.ts) then 0
      else findInsertIndex u rest + 1

/-- First `output_audio` content part with a truthy transcript inside a
`response.done` output item, provided the item is an assistant message
with a present content array (the inner loop of the `response.done`
branch, which stops at the first match). -/
def firstAudioTranscript (o : OutputItem) : Option String :=
  if o.itemType == some "message" && o.itemRole == some "assistant" && o.content.isSome then
    (o.content.getD []).foldl
      (fun acc c =>
        match acc with
        | some t => some t
        | none =>
            if c.partType == some "output_audio" && jsTruthy c.transcript then
              some (c.transcript.getD "")
            else none)
      none
  else none

/-- `handleServerEvent` of
`src/frontend/src/hooks/useRealtimeConnection.ts` (lines 294-486),
processing one inbound event at clock value `now`.  Returns the updated
reconciler state together with the list of messages handed to the
external `onMessage` callback during the step (`addMessage` and the
explicit `onMessage` call of the user-transcription branch). -/
def handleServerEvent (st : ReconcilerState) (now : Nat) (e : ServerEvent) :
    ReconcilerState × List TranscriptMessage :=
  match e with
  | ServerEvent.conversationItemAdded itemRole itemId =>
      -- record a pending user item, timestamped now
      if itemRole == some "user" && jsTruthy itemId then
        ({ st with pendingUserMessages := mapSet st.pendingUserMessages (itemId.getD "") now }, [])
      else (st, [])
  | ServerEvent.inputAudioTranscriptionCompleted transcript itemId =>
      if jsTruthy transcript && jsTruthy itemId then
        let tx := transcript.getD ""
        let i := itemId.getD ""
        -- pending?.timestamp || Date.now(): a missing entry, and a
        -- (JS-falsy) zero timestamp, both fall back to now
        let messageTimestamp :=
          match mapGet st.pendingUserMessages i with
          | some t => if t == 0 then now else t
          | none => now
        let k := findInsertIndex messageTimestamp st.messages
        let newMessage : TranscriptMessage :=
          ⟨⟨Role.user, messageTimestamp⟩, Role.user, tx⟩
        ({ st with
            messages := st.messages.take k ++ [newMessage] ++ st.messages.drop k,
            pendingUserMessages := mapDelete st.pendingUserMessages i },
          [newMessage])
      else (st, [])
  | ServerEvent.inputAudioTranscriptionDelta => (st, [])
  | ServerEvent.outputAudioTranscriptDelta delta =>
      if jsTruthy delta then
        let d := delta.getD ""
        match st.currentAssistantMessageId with
        | none =>
            let mid : MsgId := ⟨Role.assistant, now⟩
            let m : TranscriptMessage := ⟨mid, Role.assistant, d⟩
            ({ st with
                messages := st.messages ++ [m],
                currentAssistantMessageId := some mid }, [m])
        | some cid =>
            -- find, then append the fragment in place
            if st.messages.any (fun m => m.id == cid) then
              ({ st with
                  messages := st.messages.map (fun m =>
                    if m.id == cid then { m with content := m.content ++ d } else m) }, [])
            else (st, [])
      else (st, [])
  | ServerEvent.outputAudioTranscriptDone transcript =>
      if jsTruthy transcript then
        let tx := transcript.getD ""
        match st.currentAssistantMessageId with
        | some cid =>
            ({ st with
                messages := st.messages.map (fun m =>
                  if m.id == cid then { m with content := tx } else m),
                currentAssistantMessageId := none }, [])
        | none =>
            let m : TranscriptMessage := ⟨⟨Role.assistant, now⟩, Role.assistant, tx⟩
            ({ st with messages := st.messages ++ [m] }, [m])
      else (st, [])
  | ServerEvent.responseDone output =>
      let st1 :=
        match st.currentAssistantMessageId, output with
        | some cid, some outs =>
            -- the outer loop visits every output item; each item with a
            -- matching audio transcript rewrites the current message
            { st with
                messages := outs.foldl
                  (fun (msgs : List TranscriptMessage) o =>
                    match firstAudioTranscript o with
                    | some t => msgs.map (fun (m : TranscriptMessage) =>
                        if m.id == cid then { m with content := t } else m)
                    | none => msgs)
                  st.messages }
        | _, _ => st
      ({ st1 with currentAssistantMessageId := none }, [])
  | ServerEvent.conversationItemCreated itemRole firstContentText =>
      if itemRole == some "assistant" && jsTruthy firstContentText then
        let m : TranscriptMessage :=
          ⟨⟨Role.assistant, now⟩, Role.assistant, firstContentText.getD ""⟩
        ({ st with messages := st.messages ++ [m] }, [m])
      else (st, [])
  | ServerEvent.unknownEvent => (st, [])

/-- Fold `handleServerEvent` over a timed inbound event trace. -/
def processEvents (st : ReconcilerState) (evs : List (Nat × ServerEvent)) : ReconcilerState :=
  evs.foldl (fun s p => (handleServerEvent s p.1 p.2).1) st

/-- The reconciler state of a fresh connection. -/
def initialReconcilerState : ReconcilerState := ⟨[], none, []⟩

namespace Webrtc

/-- The `detail` field of a parsed non-success session-endpoint
response body: absent, JSON `null`, a string, a number, or an object
whose `message` field is modelled as a possibly-absent string. -/
inductive JDetail where
  | missing
  | jnull
  | jstr (s : String)
  | jnum (n : Int)
  | jobj (message : Option String)
deriving DecidableEq, Repr

/-- The result of `response.json().catch(...)` on a non-success
response: either a parsed body with its `detail` and `error` fields, or
a parse failure (empty or non-JSON body). -/
inductive SessionBody where
  | parsed (detail : JDetail) (error : Option String)
  | unparseable
deriving DecidableEq, Repr

/-- How the error path of `establishConnection` terminates: a thrown
`Error` with the given message, or an uncaught `TypeError` (reading
`.message` off a `null` detail). -/
inductive EstablishOutcome where
  | thrown (msg : String)
  | typeError
deriving DecidableEq, Repr

/-- The hardcoded 429 fallback message of `establishConnection`. -/
def usageLimitFallback : String := "Usage limit reached. Resets in 24 hours."

/-- The non-success branch of `establishConnection`
(`src/frontend/src/hooks/useRealtimeConnection/webrtc.ts`, lines
108-130): the message of the `Error` thrown for a non-ok response with
the given HTTP status and body.  A parse failure is substituted by
`{ detail: "Unknown error" }` (the `.catch` handler) before the status
is inspected.  In the 429 branch, `typeof detail === "object"` also
holds for `null`, whose `.message` access raises a `TypeError`. -/
def establishConnectionError (status : Nat) (body : SessionBody) : EstablishOutcome :=
  let errorDetail : JDetail :=
    match body with
    | SessionBody.parsed d _ => d
    | SessionBody.unparseable => JDetail.jstr "Unknown error"
  let errorField : Option String :=
    match body with
    | SessionBody.parsed _ e => e
    | SessionBody.unparseable => none
  if status == 429 then
    match errorDetail with
    | JDetail.jnull => EstablishOutcome.typeError
    | JDetail.jobj m =>
        if jsTruthy m then EstablishOutcome.thrown (m.getD "")
        else EstablishOutcome.thrown usageLimitFallback
    | JDetail.jstr s => EstablishOutcome.thrown s
    | JDetail.missing => EstablishOutcome.thrown usageLimitFallback
    | JDetail.jnum _ => EstablishOutcome.thrown usageLimitFallback
  else
    -- (typeof detail === "object" && detail?.message) ||
    -- (typeof detail === "string" && detail) || errorData.error || default
    let m1 : Option String :=
      match errorDetail with
      | JDetail.jobj (some m) => if m != "" then some m else none
      | _ => none
    let m2 : Option String :=
      match errorDetail with
      | JDetail.jstr s => if s != "" then some s else none
      | _ => none
    let m3 : Option String :=
      match errorField with
      | some e => if e != "" then some e else none
      | none => none
    EstablishOutcome.thrown ((m1 <|> m2 <|> m3).getD "Failed to create session")

end Webrtc

namespace Usage

/-- A JavaScript number that is either an integer or `NaN` (`none`).
`new Date(s).getTime()` yields `NaN` exactly when `s` is unparseable;
every arithmetic step propagates `NaN` and every comparison against
`NaN` is false. -/
def JNum := Option Int
deriving DecidableEq, Repr

/-- JS subtraction on possibly-`NaN` numbers. -/
def jsub : JNum → JNum → JNum
  | some a, some b => some (a - b)
  | _, _ => none

/-- JS `<=` (false whenever an operand is `NaN`). -/
def jleB : JNum → JNum → Bool
  | some a, some b => decide (a ≤ b)
  | _, _ => false

/-- JS `>` (false whenever an operand is `NaN`). -/
def jgtB : JNum → JNum → Bool
  | some a, some b => decide (b < a)
  | _, _ => false

/-- `Math.floor(a / b)` for a positive integer literal `b`:
floor division, `NaN` propagating. -/
def jfloorDiv (a : JNum) (b : Int) : JNum :=
  match a with
  | some x => some (Int.fdiv x b)
  | none => none

/-- JS `%` (truncated remainder, sign of the dividend), `NaN`
propagating. -/
def jmod (a : JNum) (b : Int) : JNum :=
  match a with
  | some x => some (Int.tmod x b)
  | none => none

/-- Template-literal rendering of a JS number. -/
def jrender : JNum → String
  | some v => toString v
  | none => "NaN"

/-- `formatResetTime` of
`src/frontend/src/hooks/useRealtimeConnection/usage.ts` (lines
120-144).  `resetTimeMs` is `new Date(resetAt).getTime()` — `none`
(`NaN`) when `resetAt` is unparseable — and `nowMs` is the current
time.  The source's `catch` branch (returning `"in 24 hours"`) is
unreachable: none of the operations in the `try` block throws, an
unparseable date only yields `NaN`, so it has no counterpart here. -/
def formatResetTime (resetTimeMs : JNum) (nowMs : Int) : String :=
  let diffMs := jsub resetTimeMs (some nowMs)
  if jleB diffMs (some 0) then "now"
  else
    let hours := jfloorDiv diffMs 3600000
    let minutes := jfloorDiv (jmod diffMs 3600000) 60000
    if jgtB hours (some 0) then
      "in " ++ jrender hours ++ " hour" ++ (if jgtB hours (some 1) then "s" else "") ++
        (if jgtB minutes (some 0) then
          " and " ++ jrender minutes ++ " minute" ++ (if jgtB minutes (some 1) then "s" else "")
        else "")
    else if jgtB minutes (some 0) then
      "in " ++ jrender minutes ++ " minute" ++ (if jgtB minutes (some 1) then "s" else "")
    else "in less than a minute"

end Usage

namespace Hook

/-- `RTCPeerConnection.connectionState` values. -/
inductive RTCConnState where
  | stNew
  | stConnecting
  | stConnected
  | stDisconnected
  | stFailed
  | stClosed
deriving DecidableEq, Repr

/-- The transport resource bundle returned by `createWebRTCConnection`:
the peer connection's live state plus one flag per releasable resource
(event data channel, peer connection, local media tracks, audio
element), each `true` once released. -/
structure WebRTCConnection where
  peerState : RTCConnState
  dataChannelClosed : Bool
  pcClosed : Bool
  tracksStopped : Bool
  audioDetached : Bool
deriving DecidableEq, Repr

/-- `cleanupWebRTC` of
`src/frontend/src/hooks/useRealtimeConnection/webrtc.ts` (lines
144-163): a no-op on `null`, otherwise closes the data channel, closes
the peer connection, stops every media track and detaches/removes the
audio element. -/
def cleanupWebRTC : Option WebRTCConnection → Option WebRTCConnection
  | none => none
  | some c => some { c with
      dataChannelClosed := true,
      pcClosed := true,
      tracksStopped := true,
      audioDetached := true }

/-- The 45-second overall connection timeout of `connect`. -/
def connectionTimeoutMs : Nat := 45000

/-- The state owned by the hook of
`src/frontend/src/hooks/useRealtimeConnection/index.ts`: the React
state record (`isConnected`, `isConnecting`, `error`, `messages`), the
reconciler refs, the timeout timer ref (`timerArmed` true while a
`setTimeout` is pending) and the connection ref. -/
structure HookState where
  isConnected : Bool
  isConnecting : Bool
  error : Option String
  messages : List TranscriptMessage
  currentAssistantMessageId : Option MsgId
  pendingUserMessages : List (String × Nat)
  timerArmed : Bool
  connection : Option WebRTCConnection
deriving DecidableEq, Repr

/-- `disconnect` (index.ts lines 54-72): runs `cleanupWebRTC` on the
connection ref, nulls the ref, clears the pending timeout, resets the
reconciler refs, and sets both lifecycle flags false, leaving
`messages` and `error` untouched.  Also returns the released connection
object (the result of the cleanup) so that resource release is
observable. -/
def disconnect (s : HookState) : HookState × Option WebRTCConnection :=
  ({ s with
      connection := none,
      timerArmed := false,
      currentAssistantMessageId := none,
      pendingUserMessages := [],
      isConnected := false,
      isConnecting := false },
    cleanupWebRTC s.connection)

/-- The atomic steps of the hook between asynchronous suspension
points, as observed by the shared state: the synchronous guard of
`connect` (check-and-set plus arming the timeout), the attachment of a
freshly created transport, the `catch` branch of `connect`, a
connection-state-change callback, the timeout callback firing, a
`disconnect` call, the usage-limit callback, and one inbound data
channel event handed to the reconciler. -/
inductive HookAction where
  | connectStart
  | connectAttach
  | connectFailure (msg : String)
  | stateChange (st : RTCConnState)
  | timeoutFire
  | disconnectCall
  | limitExceeded (resetTime : String)
  | inboundEvent (now : Nat) (e : ServerEvent)
deriving DecidableEq, Repr

/-- Live peer connection state read off the connection ref
(`connectionRef.current?.peerConnection.connectionState`). -/
def livePeerState (s : HookState) : Option RTCConnState :=
  s.connection.map (fun c => c.peerState)

/-- One atomic step of the hook, returning the successor state and, when
a `cleanupWebRTC` ran during the step, the released connection object.

* `connectStart` (index.ts lines 83-109): returns early when the live
  peer state is already `connected` or `connecting`; otherwise the
  guarded `setState` (no-op when `isConnecting` or `isConnected` is
  already set, else set `isConnecting` and clear `error`) followed
  unconditionally by arming the 45 s timeout.
* `connectAttach`: `connectionRef.current = connection` with a fresh
  transport (peer state `new`, all resources live).
* `connectFailure` (lines 184-213): clear the timeout, set an error
  message, drop both flags, clean up and null the ref.
* `stateChange` (lines 140-173): the transport first moves its own
  state, then the callback mirrors it into the flags; `connected`
  clears the timer and sets `isConnected`; `disconnected`/`failed`/
  `closed` clear the timer and drop both flags, with an error only for
  `failed`; `connecting` only sets `isConnecting`; `new` has no branch.
* `timeoutFire` (lines 98-109): only possible while the timer is
  armed; if the live peer state is not `connected`, set the timeout
  error with both flags false and call `disconnect`.
* `disconnectCall` (lines 54-72) and `limitExceeded` (lines 74-81,
  which sets the usage error and then disconnects).
* `inboundEvent`: `handleServerEvent` on the reconciler sub-state
  (index.ts delegates inbound channel messages to the event handler,
  which never touches `isConnected`/`isConnecting`). -/
def stepR (s : HookState) (a : HookAction) : HookState × Option WebRTCConnection :=
  match a with
  | HookAction.connectStart =>
      if livePeerState s == some RTCConnState.stConnected
          || livePeerState s == some RTCConnState.stConnecting then (s, none)
      else
        let s1 :=
          if s.isConnecting || s.isConnected then s
          else { s with isConnecting := true, error := none }
        ({ s1 with timerArmed := true }, none)
  | HookAction.connectAttach =>
      ({ s with connection := some ⟨RTCConnState.stNew, false, false, false, false⟩ }, none)
  | HookAction.connectFailure msg =>
      let s1 := { s with
        timerArmed := false,
        isConnecting := false,
        isConnected := false,
        error := some msg,
        connection := none }
      (s1, cleanupWebRTC s.connection)
  | HookAction.stateChange st =>
      let sc := { s with connection := s.connection.map (fun c => { c with peerState := st }) }
      match st with
      | RTCConnState.stConnected =>
          ({ sc with
              timerArmed := false,
              isConnected := true,
              isConnecting := false,
              error := none }, none)
      | RTCConnState.stDisconnected =>
          ({ sc with
              timerArmed := false,
              isConnected := false,
              isConnecting := false,
              error := none }, none)
      | RTCConnState.stFailed =>
          ({ sc with
              timerArmed := false,
              isConnected := false,
              isConnecting := false,
              error := some "Connection failed" }, none)
      | RTCConnState.stClosed =>
          ({ sc with
              timerArmed := false,
              isConnected := false,
              isConnecting := false,
              error := none }, none)
      | RTCConnState.stConnecting =>
          ({ sc with isConnecting := true }, none)
      | RTCConnState.stNew => (sc, none)
  | HookAction.timeoutFire =>
      if s.timerArmed then
        if livePeerState s == some RTCConnState.stConnected then
          ({ s with timerArmed := false }, none)
        else
          disconnect { s with
            isConnecting := false,
            isConnected := false,
            error := some "Connection timeout - please try again",
            timerArmed := false }
      else (s, none)
  | HookAction.disconnectCall => disconnect s
  | HookAction.limitExceeded resetTime =>
      disconnect { s with
        error := some ("Usage limit reached. Please try again " ++ resetTime ++ ".") }
  | HookAction.inboundEvent now e =>
      let r := (handleServerEvent
        ⟨s.messages, s.currentAssistantMessageId, s.pendingUserMessages⟩ now e).1
      ({ s with
          messages := r.messages,
          currentAssistantMessageId := r.currentAssistantMessageId,
          pendingUserMessages := r.pendingUserMessages }, none)

/-- The state projection of `stepR`. -/
def step (s : HookState) (a : HookAction) : HookState := (stepR s a).1

/-- The hook's state before any action. -/
def initialHookState : HookState :=
  ⟨false, false, none, [], none, [], false, none⟩

end Hook

/-! ## Claim-side predicates

Definitions below formalise the properties the claims state; they are
written from the claims' wording and are compared against the embedded
code by the theorems. -/

/-- The id-embedded timestamps of the assistant messages of a
transcript, in display order. -/
def assistantTs : List TranscriptMessage → List Nat
  | [] => []
  | m :: rest =>
      if m.role = Role.assistant then m.id.ts :: assistantTs rest else assistantTs rest

/-- The inductive invariant behind the amended monotonicity claim: the
assistant timestamps of a transcript are sorted and all bounded by the
clock value `c` of the last processed event. -/
def listInv (c : Nat) (l : List TranscriptMessage) : Prop :=
  (assistantTs l).Sorted (· ≤ ·) ∧ ∀ t ∈ assistantTs l, t ≤ c

/-- Same-role monotonicity of a transcript: any message appearing
before another of the same role has a less-or-equal id-embedded
timestamp (decidable form). -/
def sameRoleMonotoneB : List TranscriptMessage → Bool
  | [] => true
  | m :: rest =>
      rest.all (fun m' => !(m.role == m'.role) || decide (m.id.ts ≤ m'.id.ts)) &&
        sameRoleMonotoneB rest

/-- Per-item causality of an inbound trace: every user
transcription-completed event is preceded by the announcement
(`conversation.item.added`, role user) of the same item id.  `seen`
accumulates the announced ids. -/
def perItemCausality (seen : List String) : List (Nat × ServerEvent) → Bool
  | [] => true
  | (_, e) :: rest =>
      match e with
      | ServerEvent.conversationItemAdded itemRole (some i) =>
          if itemRole == some "user" then perItemCausality (i :: seen) rest
          else perItemCausality seen rest
      | ServerEvent.inputAudioTranscriptionCompleted _ (some i) =>
          seen.contains i && perItemCausality seen rest
      | _ => perItemCausality seen rest

/-- The mutual-exclusivity invariant of the connection state:
`isConnected` and `isConnecting` are not both set. -/
def mutexOK (s : Hook.HookState) : Bool :=
  !(s.isConnected && s.isConnecting)

/-- The event trace of claim C2's counterexample: item `B` is announced
at 1000 and item `A` at 3000; `A`'s transcription completes first
(3500), then `B`'s (4000). -/
def c2trace : List (Nat × ServerEvent) :=
  [(1000, ServerEvent.conversationItemAdded (some "user") (some "B")),
   (3000, ServerEvent.conversationItemAdded (some "user") (some "A")),
   (3500, ServerEvent.inputAudioTranscriptionCompleted (some "hi") (some "A")),
   (4000, ServerEvent.inputAudioTranscriptionCompleted (some "yo") (some "B"))]

/-! ## Claim C3 — 429 message extraction -/

/-- C3 counterexample: contrary to the claim, an empty or unparseable
429 response body does not produce the fallback
"Usage limit reached. Resets in 24 hours." — the JSON-parse `.catch`
substitutes `{ detail: "Unknown error" }`, so the thrown message is
"Unknown error". -/
theorem claim3_http429_unparseable_counterexample :
    Webrtc.establishConnectionError 429 Webrtc.SessionBody.unparseable
      = Webrtc.EstablishOutcome.thrown "Unknown error" ∧
    Webrtc.EstablishOutcome.thrown "Unknown error"
      ≠ Webrtc.EstablishOutcome.thrown Webrtc.usageLimitFallback := by
  decide

/-- C3 amended: on HTTP 429 the thrown message is `detail.message` when
`detail` is an object with a truthy `message`, the `detail` string when
`detail` is a string, and the fallback "Usage limit reached. Resets in
24 hours." when `detail` is absent, a number, or an object without a
truthy message — except that an empty or unparseable body throws
"Unknown error", and a JSON-`null` `detail` raises a `TypeError`. -/
theorem claim3_http429_extraction_amended :
    (∀ (m : String) (e : Option String), m ≠ "" →
      Webrtc.establishConnectionError 429
          (Webrtc.SessionBody.parsed (Webrtc.JDetail.jobj (some m)) e)
        = Webrtc.EstablishOutcome.thrown m) ∧
    (∀ (s : String) (e : Option String),
      Webrtc.establishConnectionError 429
          (Webrtc.SessionBody.parsed (Webrtc.JDetail.jstr s) e)
        = Webrtc.EstablishOutcome.thrown s) ∧
    (∀ (e : Option String),
      Webrtc.establishConnectionError 429
          (Webrtc.SessionBody.parsed Webrtc.JDetail.missing e)
        = Webrtc.EstablishOutcome.thrown Webrtc.usageLimitFallback) ∧
    (∀ (n : Int) (e : Option String),
      Webrtc.establishConnectionError 429
          (Webrtc.SessionBody.parsed (Webrtc.JDetail.jnum n) e)
        = Webrtc.EstablishOutcome.thrown Webrtc.usageLimitFallback) ∧
    (∀ (e : Option String),
      Webrtc.establishConnectionError 429
          (Webrtc.SessionBody.parsed (Webrtc.JDetail.jobj none) e)
        = Webrtc.EstablishOutcome.thrown Webrtc.usageLimitFallback) ∧
    (∀ (e : Option String),
      Webrtc.establishConnectionError 429
          (Webrtc.SessionBody.parsed (Webrtc.JDetail.jobj (some "")) e)
        = Webrtc.EstablishOutcome.thrown Webrtc.usageLimitFallback) ∧
    Webrtc.establishConnectionError 429 Webrtc.SessionBody.unparseable
      = Webrtc.EstablishOutcome.thrown "Unknown error" ∧
    (∀ (e : Option String),
      Webrtc.establishConnectionError 429
          (Webrtc.SessionBody.parsed Webrtc.JDetail.jnull e)
        = Webrtc.EstablishOutcome.typeError) := by
  refine ⟨?_, ?_, ?_, ?_, ?_, ?_, ?_, ?_⟩ <;>
    intros <;>
    simp_all [Webrtc.establishConnectionError, jsTruthy]

/-- C3 witness: the structured-message case at the spec's own example
body. -/
theorem claim3_http429_extraction_amended_witness :
    "Quota exceeded" ≠ "" ∧
    Webrtc.establishConnectionError 429
        (Webrtc.SessionBody.parsed (Webrtc.JDetail.jobj (some "Quota exceeded")) none)
      = Webrtc.EstablishOutcome.thrown "Quota exceeded" :=
  ⟨by decide, claim3_http429_extraction_amended.1 "Quota exceeded" none (by decide)⟩

/-! ## Claim C4 — formatResetTime on an unparseable instant -/

/-- C4: at the failing input — an unparseable instant, i.e. a `NaN`
parsed time — `formatResetTime` returns "in less than a minute", not
the claimed fallback "in 24 hours": `new Date` never throws, `NaN`
comparisons are all false, so control falls through to the final
branch and the `catch` returning "in 24 hours" is dead code. -/
theorem claim4_formatResetTime_unparseable :
    Usage.formatResetTime none 1700000000000 = "in less than a minute" ∧
    "in less than a minute" ≠ "in 24 hours" := by
  decide

/-! ## Claim C8 — idempotent, frame-preserving disconnect -/

/-- C8: `disconnect`, called from any state, yields
`isConnected = false` and `isConnecting = false`, resets the reconciler
state (current assistant message cleared, pending user items emptied),
clears the timeout, and leaves `messages` and `error` unchanged; a
second call leaves the state identical. -/
theorem claim8_disconnect_idempotent (s : Hook.HookState) :
    (Hook.disconnect s).1.isConnected = false ∧
    (Hook.disconnect s).1.isConnecting = false ∧
    (Hook.disconnect s).1.currentAssistantMessageId = none ∧
    (Hook.disconnect s).1.pendingUserMessages = [] ∧
    (Hook.disconnect s).1.timerArmed = false ∧
    (Hook.disconnect s).1.messages = s.messages ∧
    (Hook.disconnect s).1.error = s.error ∧
    (Hook.disconnect (Hook.disconnect s).1).1 = (Hook.disconnect s).1 := by
  simp [Hook.disconnect, Hook.cleanupWebRTC]

/-! ## Claim C10 — guard of the user-transcription branch -/

/-- C10: a user-transcription-completed event without a truthy
transcript or without a truthy item id changes nothing: the state
(including the pending user items) is returned untouched and no message
is handed to the external callback. -/
theorem claim10_malformed_transcription_no_change
    (st : ReconcilerState) (now : Nat) (tx iid : Option String)
    (h : jsTruthy tx = false ∨ jsTruthy iid = false) :
    handleServerEvent st now (ServerEvent.inputAudioTranscriptionCompleted tx iid)
      = (st, []) := by
  rcases h with h | h <;> simp [handleServerEvent, h]

/-- C10 witness: a transcription-completed event with no transcript
leaves a state with a recorded pending item untouched. -/
theorem claim10_malformed_transcription_no_change_witness :
    jsTruthy none = false ∧
    handleServerEvent ⟨[], none, [("item-a", 7)]⟩ 99
        (ServerEvent.inputAudioTranscriptionCompleted none (some "item-a"))
      = (⟨[], none, [("item-a", 7)]⟩, []) :=
  ⟨rfl, claim10_malformed_transcription_no_change _ 99 none (some "item-a") (Or.inl rfl)⟩

/-! ## Claim C5 — mutual exclusivity of isConnected and isConnecting -/

/-- C5 counterexample: the invariant fails under an interleaving the
claim quantifies over.  After `connect` and a `connected` transition, a
`connecting` connection-state-change callback (a transition WebRTC
performs on ICE restart) sets `isConnecting` without clearing
`isConnected`, reaching a state with both flags true. -/
theorem claim5_mutual_exclusivity_counterexample :
    (Hook.step (Hook.step (Hook.step Hook.initialHookState Hook.HookAction.connectStart)
        (Hook.HookAction.stateChange Hook.RTCConnState.stConnected))
        (Hook.HookAction.stateChange Hook.RTCConnState.stConnecting)).isConnected = true ∧
    (Hook.step (Hook.step (Hook.step Hook.initialHookState Hook.HookAction.connectStart)
        (Hook.HookAction.stateChange Hook.RTCConnState.stConnected))
        (Hook.HookAction.stateChange Hook.RTCConnState.stConnecting)).isConnecting = true := by
  decide

/-- C5 amended: `isConnected` and `isConnecting` are never
simultaneously true in any state reachable by interleavings of connect,
disconnect, transport state-change callbacks, timeout firing and
inbound events, provided no `connecting` state-change callback is
delivered while `isConnected` is true — that callback branch is the
only step that can break the invariant, since it sets `isConnecting`
without clearing `isConnected`. -/
theorem claim5_mutual_exclusivity_amended :
    mutexOK Hook.initialHookState = true ∧
    ∀ (s : Hook.HookState) (a : Hook.HookAction),
      mutexOK s = true →
      (a = Hook.HookAction.stateChange Hook.RTCConnState.stConnecting →
        s.isConnected = false) →
      mutexOK (Hook.step s a) = true := by
  refine ⟨rfl, ?_⟩
  intro s a h hconn
  cases a with
  | connectStart =>
      cases hb1 : s.isConnected <;> cases hb2 : s.isConnecting <;>
        simp_all [Hook.step, Hook.stepR, mutexOK] <;>
        (repeat' split) <;> simp_all
  | connectAttach =>
      cases hb1 : s.isConnected <;> cases hb2 : s.isConnecting <;>
        simp_all [Hook.step, Hook.stepR, mutexOK]
  | connectFailure msg =>
      simp [Hook.step, Hook.stepR, mutexOK]
  | stateChange st =>
      cases st <;> cases hb1 : s.isConnected <;> cases hb2 : s.isConnecting <;>
        simp_all [Hook.step, Hook.stepR, mutexOK]
  | timeoutFire =>
      cases hb1 : s.isConnected <;> cases hb2 : s.isConnecting <;>
        simp_all [Hook.step, Hook.stepR, mutexOK, Hook.disconnect] <;>
        (repeat' split) <;> simp_all
  | disconnectCall =>
      simp [Hook.step, Hook.stepR, Hook.disconnect, mutexOK]
  | limitExceeded resetTime =>
      simp [Hook.step, Hook.stepR, Hook.disconnect, mutexOK]
  | inboundEvent now e =>
      cases hb1 : s.isConnected <;> cases hb2 : s.isConnecting <;>
        simp_all [Hook.step, Hook.stepR, mutexOK]

/-- C5 witness: the amended preservation step applied at a concrete
state and action. -/
theorem claim5_mutual_exclusivity_amended_witness :
    mutexOK (Hook.step Hook.initialHookState Hook.HookAction.disconnectCall) = true :=
  claim5_mutual_exclusivity_amended.2 Hook.initialHookState Hook.HookAction.disconnectCall
    (by decide) (by decide)

/-! ## Claim C9 — 45-second connection timeout -/

/-- C9 counterexample: the timeout error text carries a capital C —
"Connection timeout - please try again" — not the claim's exact string
"connection timeout - please try again". -/
theorem claim9_timeout_error_text_counterexample :
    (Hook.step { Hook.initialHookState with
        timerArmed := true,
        isConnecting := true,
        connection := some ⟨Hook.RTCConnState.stConnecting, false, false, false, false⟩ }
      Hook.HookAction.timeoutFire).error
      = some "Connection timeout - please try again" ∧
    some "Connection timeout - please try again"
      ≠ some "connection timeout - please try again" := by
  decide

/-- C9 amended: if the 45000 ms timer fires while the transport has not
reached `connected`, the state moves to `isConnecting = false`,
`isConnected = false` with error exactly
"Connection timeout - please try again" (capital C), the timer is
cleared, the connection ref is nulled, and every transport resource of
the released connection — event channel, peer connection, media
tracks, audio sink — is closed. -/
theorem claim9_timeout_firing_amended :
    Hook.connectionTimeoutMs = 45000 ∧
    ∀ s : Hook.HookState,
      s.timerArmed = true →
      Hook.livePeerState s ≠ some Hook.RTCConnState.stConnected →
      ((Hook.stepR s Hook.HookAction.timeoutFire).1.isConnecting = false ∧
       (Hook.stepR s Hook.HookAction.timeoutFire).1.isConnected = false ∧
       (Hook.stepR s Hook.HookAction.timeoutFire).1.error
         = some "Connection timeout - please try again" ∧
       (Hook.stepR s Hook.HookAction.timeoutFire).1.timerArmed = false ∧
       (Hook.stepR s Hook.HookAction.timeoutFire).1.connection = none ∧
       (∀ c, (Hook.stepR s Hook.HookAction.timeoutFire).2 = some c →
         c.dataChannelClosed = true ∧ c.pcClosed = true ∧
         c.tracksStopped = true ∧ c.audioDetached = true) ∧
       (s.connection.isSome →
         (Hook.stepR s Hook.HookAction.timeoutFire).2.isSome)) := by
  refine ⟨rfl, ?_⟩
  intro s ht hp
  cases hc : s.connection with
  | none =>
      simp [Hook.stepR, Hook.livePeerState, ht, Hook.disconnect, hc, Hook.cleanupWebRTC]
  | some c =>
      have hp' : ¬c.peerState = Hook.RTCConnState.stConnected := by
        simpa [Hook.livePeerState, hc] using hp
      simp [Hook.stepR, Hook.livePeerState, ht, Hook.disconnect, hc, Hook.cleanupWebRTC, hp']

/-- C9 witness: the amended timeout behaviour at a concrete
mid-handshake state with a live connection. -/
theorem claim9_timeout_firing_amended_witness :
    ({ Hook.initialHookState with
        timerArmed := true,
        isConnecting := true,
        connection := some ⟨Hook.RTCConnState.stConnecting, false, false, false, false⟩
          : Hook.HookState }.timerArmed = true) ∧
    ((Hook.stepR { Hook.initialHookState with
        timerArmed := true,
        isConnecting := true,
        connection := some ⟨Hook.RTCConnState.stConnecting, false, false, false, false⟩ }
      Hook.HookAction.timeoutFire).1.error
        = some "Connection timeout - please try again") :=
  ⟨rfl,
    ((claim9_timeout_firing_amended.2
      { Hook.initialHookState with
          timerArmed := true,
          isConnecting := true,
          connection := some ⟨Hook.RTCConnState.stConnecting, false, false, false, false⟩ }
      rfl (by decide)).2.2.1)⟩

/-! ## Shared helper lemmas -/

/-- Mapping an update keyed on an id that occurs in none of the
messages is the identity. -/
theorem map_update_id_fresh (ms : List TranscriptMessage) (cid : MsgId)
    (f : TranscriptMessage → TranscriptMessage)
    (h : ∀ m ∈ ms, m.id ≠ cid) :
    ms.map (fun m => if m.id = cid then f m else m) = ms := by
  induction ms with
  | nil => rfl
  | cons a t ih =>
      have ha : ¬a.id = cid := h a (List.mem_cons_self a t)
      simp only [List.map_cons, ha, if_false,
        ih (fun m hm => h m (List.mem_cons_of_mem a hm))]

/-- The insertion scan of the user-transcription branch computes
`List.findIdx` of "assistant message with id-embedded timestamp
strictly greater than `u`". -/
theorem findInsertIndex_eq_findIdx (u : Nat) (l : List TranscriptMessage) :
    findInsertIndex u l
      = l.findIdx (fun m => m.role == Role.assistant && decide (u < m.id.ts)) := by
  induction l with
  | nil => rfl
  | cons a t ih =>
      rw [List.findIdx_cons]
      by_cases hp : (a.role == Role.assistant && decide (u < a.id.ts)) = true
      · simp [findInsertIndex, hp]
      · simp only [Bool.not_eq_true] at hp
        simp [findInsertIndex, hp, ih]

/-! ## Claim C1 — user message insertion rule -/

/-- C1: for a user-transcription-completed event with truthy transcript
and item id, writing `u` for the recorded PendingUserItem timestamp
(nonzero, as every `Date.now()` stamp is) or `u = now` when no entry is
pending, the new message `user-<u>` is inserted exactly at the first
index of an assistant message whose id-embedded timestamp is strictly
greater than `u` (`List.findIdx`), hence at the end when no such
assistant message exists, and is handed to the message callback. -/
theorem claim1_user_insertion_rule
    (st : ReconcilerState) (now : Nat) (tx i : String) (u : Nat)
    (htx : tx ≠ "") (hi : i ≠ "")
    (hu : (mapGet st.pendingUserMessages i = some u ∧ u ≠ 0) ∨
          (mapGet st.pendingUserMessages i = none ∧ u = now)) :
    (handleServerEvent st now
        (ServerEvent.inputAudioTranscriptionCompleted (some tx) (some i))).1.messages
      = st.messages.take
            (st.messages.findIdx (fun m => m.role == Role.assistant && decide (u < m.id.ts)))
          ++ [⟨⟨Role.user, u⟩, Role.user, tx⟩]
          ++ st.messages.drop
            (st.messages.findIdx (fun m => m.role == Role.assistant && decide (u < m.id.ts))) ∧
    (handleServerEvent st now
        (ServerEvent.inputAudioTranscriptionCompleted (some tx) (some i))).2
      = [⟨⟨Role.user, u⟩, Role.user, tx⟩] ∧
    ((∀ m ∈ st.messages, ¬(m.role = Role.assistant ∧ u < m.id.ts)) →
      (handleServerEvent st now
          (ServerEvent.inputAudioTranscriptionCompleted (some tx) (some i))).1.messages
        = st.messages ++ [⟨⟨Role.user, u⟩, Role.user, tx⟩]) := by
  have htx' : (tx != "") = true := by simpa using htx
  have hi' : (i != "") = true := by simpa using hi
  have hts :
      (match mapGet st.pendingUserMessages i with
        | some t => if t == 0 then now else t
        | none => now) = u := by
    rcases hu with ⟨hp, hz⟩ | ⟨hp, hz⟩
    · rw [hp]
      simp [hz]
    · rw [hp, hz]
  have hmain :
      (handleServerEvent st now
          (ServerEvent.inputAudioTranscriptionCompleted (some tx) (some i)))
        = ({ st with
              messages := st.messages.take (findInsertIndex u st.messages)
                ++ [⟨⟨Role.user, u⟩, Role.user, tx⟩]
                ++ st.messages.drop (findInsertIndex u st.messages),
              pendingUserMessages := mapDelete st.pendingUserMessages i },
            [⟨⟨Role.user, u⟩, Role.user, tx⟩]) := by
    simp only [handleServerEvent, jsTruthy, htx', hi', Bool.and_self, if_true,
      Option.getD_some, hts]
  refine ⟨?_, ?_, ?_⟩
  · rw [hmain]
    simp [findInsertIndex_eq_findIdx]
  · rw [hmain]
  · intro hnone
    have hfalse : ∀ m ∈ st.messages,
        (fun m => m.role == Role.assistant && decide (u < m.id.ts)) m = false := by
      intro m hm
      have hno := hnone m hm
      by_cases hr : m.role = Role.assistant
      · have hnb : ¬u < m.id.ts := fun hlt => hno ⟨hr, hlt⟩
        simp [hr]
        omega
      · simp [hr]
    have hlen : st.messages.findIdx
        (fun m => m.role == Role.assistant && decide (u < m.id.ts))
        = st.messages.length := List.findIdx_eq_length.mpr hfalse
    rw [hmain]
    simp [findInsertIndex_eq_findIdx, hlen]

/-- C1 witness: with `assistant-2000` already in the transcript and a
pending item recorded at 1000, the user message is inserted before
`assistant-2000`. -/
theorem claim1_user_insertion_rule_witness :
    ("hello" ≠ "" ∧ "item1" ≠ "" ∧
      mapGet [("item1", 1000)] "item1" = some 1000) ∧
    (handleServerEvent
        ⟨[⟨⟨Role.assistant, 2000⟩, Role.assistant, "re"⟩], none, [("item1", 1000)]⟩ 5000
        (ServerEvent.inputAudioTranscriptionCompleted (some "hello") (some "item1"))).1.messages
      = [⟨⟨Role.user, 1000⟩, Role.user, "hello"⟩,
         ⟨⟨Role.assistant, 2000⟩, Role.assistant, "re"⟩] :=
  ⟨⟨by decide, by decide, by decide⟩, by
    have h := (claim1_user_insertion_rule
      ⟨[⟨⟨Role.assistant, 2000⟩, Role.assistant, "re"⟩], none, [("item1", 1000)]⟩ 5000
      "hello" "item1" 1000 (by decide) (by decide)
      (Or.inl ⟨by decide, by decide⟩)).1
    simpa using h⟩

/-! ## Claim C6 — assistant delta accumulation -/

/-- C6: three assistant-transcript-delta events with fragments "Hel",
"lo ", "world", starting with no current assistant message, add exactly
one new assistant message `assistant-<n1>` (timestamped at the first
delta) whose content accumulates to "Hello world" in place, and leave
it current; the pending user items are untouched. -/
theorem claim6_delta_accumulation
    (ms : List TranscriptMessage) (pend : List (String × Nat)) (n1 n2 n3 : Nat)
    (hfresh : ∀ m ∈ ms, m.id ≠ ⟨Role.assistant, n1⟩) :
    ((handleServerEvent
        ((handleServerEvent
          ((handleServerEvent ⟨ms, none, pend⟩ n1
            (ServerEvent.outputAudioTranscriptDelta (some "Hel"))).1) n2
          (ServerEvent.outputAudioTranscriptDelta (some "lo "))).1) n3
        (ServerEvent.outputAudioTranscriptDelta (some "world"))).1).messages
      = ms ++ [⟨⟨Role.assistant, n1⟩, Role.assistant, "Hello world"⟩] ∧
    ((handleServerEvent
        ((handleServerEvent
          ((handleServerEvent ⟨ms, none, pend⟩ n1
            (ServerEvent.outputAudioTranscriptDelta (some "Hel"))).1) n2
          (ServerEvent.outputAudioTranscriptDelta (some "lo "))).1) n3
        (ServerEvent.outputAudioTranscriptDelta (some "world"))).1).currentAssistantMessageId
      = some ⟨Role.assistant, n1⟩ ∧
    ((handleServerEvent
        ((handleServerEvent
          ((handleServerEvent ⟨ms, none, pend⟩ n1
            (ServerEvent.outputAudioTranscriptDelta (some "Hel"))).1) n2
          (ServerEvent.outputAudioTranscriptDelta (some "lo "))).1) n3
        (ServerEvent.outputAudioTranscriptDelta (some "world"))).1).pendingUserMessages
      = pend := by
  have h1 : (handleServerEvent ⟨ms, none, pend⟩ n1
        (ServerEvent.outputAudioTranscriptDelta (some "Hel"))).1
      = ⟨ms ++ [⟨⟨Role.assistant, n1⟩, Role.assistant, "Hel"⟩],
          some ⟨Role.assistant, n1⟩, pend⟩ := by
    simp [handleServerEvent, jsTruthy]
  have happ : ∀ (nn : Nat) (d old : String), d ≠ "" →
      (handleServerEvent
          ⟨ms ++ [⟨⟨Role.assistant, n1⟩, Role.assistant, old⟩],
            some ⟨Role.assistant, n1⟩, pend⟩ nn
          (ServerEvent.outputAudioTranscriptDelta (some d))).1
        = ⟨ms ++ [⟨⟨Role.assistant, n1⟩, Role.assistant, old ++ d⟩],
            some ⟨Role.assistant, n1⟩, pend⟩ := by
    intro nn d old hd
    have hd' : (d != "") = true := by simpa using hd
    simp [handleServerEvent, jsTruthy, hd', List.any_append,
      map_update_id_fresh ms ⟨Role.assistant, n1⟩ _ hfresh]
  rw [h1, happ n2 "lo " "Hel" (by decide), happ n3 "world" ("Hel" ++ "lo ") (by decide)]
  have hs : (("Hel" ++ "lo " : String) ++ "world") = "Hello world" := by decide
  rw [hs]
  exact ⟨rfl, rfl, rfl⟩

/-- C6 witness: the accumulation from an empty transcript. -/
theorem claim6_delta_accumulation_witness :
    (∀ m ∈ ([] : List TranscriptMessage), m.id ≠ ⟨Role.assistant, 1⟩) ∧
    ((handleServerEvent
        ((handleServerEvent
          ((handleServerEvent ⟨[], none, []⟩ 1
            (ServerEvent.outputAudioTranscriptDelta (some "Hel"))).1) 2
          (ServerEvent.outputAudioTranscriptDelta (some "lo "))).1) 3
        (ServerEvent.outputAudioTranscriptDelta (some "world"))).1).messages
      = [⟨⟨Role.assistant, 1⟩, Role.assistant, "Hello world"⟩] :=
  ⟨by simp, by
    have h := (claim6_delta_accumulation [] [] 1 2 3 (by simp)).1
    simpa using h⟩

/-! ## Claim C7 — completion overwrite -/

/-- C7: an assistant-transcript-completed event with truthy final text:
with a current assistant message the transcript keeps its length, every
message carrying the current id gets content exactly the final text
(not an appended suffix), every other message is untouched, and the
current marker is cleared; with no current message a new finalized
assistant message is appended and handed to the callback. -/
theorem claim7_completion_overwrite
    (st : ReconcilerState) (now : Nat) (tx : String) (htx : tx ≠ "") :
    (∀ cid, st.currentAssistantMessageId = some cid →
      ((handleServerEvent st now
          (ServerEvent.outputAudioTranscriptDone (some tx))).1.currentAssistantMessageId
        = none ∧
       (handleServerEvent st now
          (ServerEvent.outputAudioTranscriptDone (some tx))).1.messages.length
        = st.messages.length ∧
       (∀ m ∈ st.messages, m.id = cid →
         (⟨m.id, m.role, tx⟩ : TranscriptMessage) ∈
           (handleServerEvent st now
             (ServerEvent.outputAudioTranscriptDone (some tx))).1.messages) ∧
       (∀ m ∈ st.messages, m.id ≠ cid →
         m ∈ (handleServerEvent st now
           (ServerEvent.outputAudioTranscriptDone (some tx))).1.messages))) ∧
    (st.currentAssistantMessageId = none →
      ((handleServerEvent st now
          (ServerEvent.outputAudioTranscriptDone (some tx))).1.messages
        = st.messages ++ [⟨⟨Role.assistant, now⟩, Role.assistant, tx⟩] ∧
       (handleServerEvent st now
          (ServerEvent.outputAudioTranscriptDone (some tx))).1.currentAssistantMessageId
        = none ∧
       (handleServerEvent st now
          (ServerEvent.outputAudioTranscriptDone (some tx))).2
        = [⟨⟨Role.assistant, now⟩, Role.assistant, tx⟩])) := by
  have htx' : (tx != "") = true := by simpa using htx
  constructor
  · intro cid hcid
    refine ⟨?_, ?_, ?_, ?_⟩ <;>
      simp [handleServerEvent, jsTruthy, htx', hcid]
    · intro m hm hid
      exact ⟨m, hm, by simp [hid]⟩
    · intro m hm hid
      exact ⟨m, hm, by simp [hid]⟩
  · intro hcid
    simp [handleServerEvent, jsTruthy, htx', hcid]

/-- C7 witness: overwriting an accumulated "Fin" with the final text
"Final answer." clears the current marker and does not append. -/
theorem claim7_completion_overwrite_witness :
    ("Final answer." ≠ "" ∧
      (⟨[⟨⟨Role.assistant, 10⟩, Role.assistant, "Fin"⟩],
        some ⟨Role.assistant, 10⟩, []⟩ : ReconcilerState).currentAssistantMessageId
        = some ⟨Role.assistant, 10⟩) ∧
    (handleServerEvent
        ⟨[⟨⟨Role.assistant, 10⟩, Role.assistant, "Fin"⟩], some ⟨Role.assistant, 10⟩, []⟩ 99
        (ServerEvent.outputAudioTranscriptDone (some "Final answer."))).1.messages.length
      = 1 ∧
    (⟨⟨Role.assistant, 10⟩, Role.assistant, "Final answer."⟩ : TranscriptMessage) ∈
      (handleServerEvent
        ⟨[⟨⟨Role.assistant, 10⟩, Role.assistant, "Fin"⟩], some ⟨Role.assistant, 10⟩, []⟩ 99
        (ServerEvent.outputAudioTranscriptDone (some "Final answer."))).1.messages :=
  ⟨⟨by decide, rfl⟩, by
    have h := (claim7_completion_overwrite
      ⟨[⟨⟨Role.assistant, 10⟩, Role.assistant, "Fin"⟩], some ⟨Role.assistant, 10⟩, []⟩ 99
      "Final answer." (by decide)).1 ⟨Role.assistant, 10⟩ rfl
    exact ⟨h.2.1, h.2.2.1 _ (List.mem_cons_self _ _) rfl⟩⟩

/-! ## Claim C2 — ordering monotonicity -/

/-- Assistant timestamps distribute over append. -/
theorem assistantTs_append (l1 l2 : List TranscriptMessage) :
    assistantTs (l1 ++ l2) = assistantTs l1 ++ assistantTs l2 := by
  induction l1 with
  | nil => rfl
  | cons a t ih =>
      by_cases ha : a.role = Role.assistant <;> simp [assistantTs, ha, ih]

/-- A map that preserves ids and roles preserves the assistant
timestamps. -/
theorem assistantTs_map_preserve (l : List TranscriptMessage)
    (f : TranscriptMessage → TranscriptMessage)
    (h : ∀ m, (f m).role = m.role ∧ (f m).id = m.id) :
    assistantTs (l.map f) = assistantTs l := by
  induction l with
  | nil => rfl
  | cons a t ih =>
      rcases h a with ⟨hr, hi⟩
      by_cases ha : a.role = Role.assistant <;>
        simp [assistantTs, hr, hi, ha, ih]

/-- Inserting a user message at any position preserves the assistant
timestamps. -/
theorem assistantTs_insert_user (l : List TranscriptMessage) (k : Nat)
    (m : TranscriptMessage) (hm : m.role = Role.user) :
    assistantTs (l.take k ++ [m] ++ l.drop k) = assistantTs l := by
  have h1 : assistantTs [m] = [] := by simp [assistantTs, hm]
  rw [assistantTs_append, assistantTs_append, h1, List.append_nil,
    ← assistantTs_append, List.take_append_drop]

/-- The content-rewriting fold of the `response.done` branch preserves
the assistant timestamps. -/
theorem assistantTs_foldl_update (outs : List OutputItem) (cid : MsgId)
    (msgs : List TranscriptMessage) :
    assistantTs (outs.foldl
      (fun (acc : List TranscriptMessage) o =>
        match firstAudioTranscript o with
        | some t => acc.map (fun (m : TranscriptMessage) =>
            if m.id == cid then { m with content := t } else m)
        | none => acc)
      msgs) = assistantTs msgs := by
  induction outs generalizing msgs with
  | nil => rfl
  | cons o rest ih =>
      rw [List.foldl_cons]
      cases hft : firstAudioTranscript o with
      | none => simp only [hft, ih]
      | some t =>
          simp only [hft, ih]
          exact assistantTs_map_preserve msgs _ (fun m => by
            by_cases hm : (m.id == cid) = true <;> simp [hm])

/-- The invariant is monotone in the clock bound. -/
theorem listInv_mono (c now : Nat) (l : List TranscriptMessage)
    (h : listInv c l) (hc : c ≤ now) : listInv now l :=
  ⟨h.1, fun t ht => le_trans (h.2 t ht) hc⟩

/-- The invariant transfers along equal assistant timestamps. -/
theorem listInv_of_assistantTs_eq (c : Nat) (l l' : List TranscriptMessage)
    (he : assistantTs l' = assistantTs l) (h : listInv c l) : listInv c l' := by
  unfold listInv
  rw [he]
  exact h

/-- Appending an assistant message stamped with the current clock
preserves the invariant at the new clock. -/
theorem listInv_append_assistant (c now : Nat) (l : List TranscriptMessage)
    (h : listInv c l) (hc : c ≤ now) (m : TranscriptMessage)
    (hr : m.role = Role.assistant) (hts : m.id.ts = now) :
    listInv now (l ++ [m]) := by
  have h1 : assistantTs [m] = [now] := by simp [assistantTs, hr, hts]
  constructor
  · rw [assistantTs_append, h1]
    refine List.pairwise_append.mpr ⟨h.1, by simp, ?_⟩
    intro a ha b hb
    rw [List.mem_singleton] at hb
    subst hb
    exact le_trans (h.2 a ha) hc
  · intro t ht
    rw [assistantTs_append, h1] at ht
    rcases List.mem_append.mp ht with hl | hr2
    · exact le_trans (h.2 t hl) hc
    · rw [List.mem_singleton] at hr2
      exact le_of_eq hr2

/-- One reconciler step at a clock value at least the previous bound
preserves the invariant at the new clock. -/
theorem listInv_handleServerEvent (c now : Nat) (st : ReconcilerState) (e : ServerEvent)
    (h : listInv c st.messages) (hc : c ≤ now) :
    listInv now (handleServerEvent st now e).1.messages := by
  cases e with
  | conversationItemAdded r i =>
      simp only [handleServerEvent]
      split
      · exact listInv_mono c now _ h hc
      · exact listInv_mono c now _ h hc
  | inputAudioTranscriptionCompleted tx iid =>
      simp only [handleServerEvent]
      split
      · exact listInv_of_assistantTs_eq now _ _
          (assistantTs_insert_user st.messages _ _ rfl) (listInv_mono c now _ h hc)
      · exact listInv_mono c now _ h hc
  | inputAudioTranscriptionDelta => exact listInv_mono c now _ h hc
  | outputAudioTranscriptDelta d =>
      simp only [handleServerEvent]
      split
      · cases hcur : st.currentAssistantMessageId with
        | none =>
            simp only [hcur]
            exact listInv_append_assistant c now _ h hc _ rfl rfl
        | some cid =>
            simp only [hcur]
            split
            · exact listInv_of_assistantTs_eq now _ _
                (assistantTs_map_preserve st.messages _ (fun m => by
                  by_cases hm : (m.id == cid) = true <;> simp [hm]))
                (listInv_mono c now _ h hc)
            · exact listInv_mono c now _ h hc
      · exact listInv_mono c now _ h hc
  | outputAudioTranscriptDone tx =>
      simp only [handleServerEvent]
      split
      · cases hcur : st.currentAssistantMessageId with
        | some cid =>
            simp only [hcur]
            exact listInv_of_assistantTs_eq now _ _
              (assistantTs_map_preserve st.messages _ (fun m => by
                by_cases hm : (m.id == cid) = true <;> simp [hm]))
              (listInv_mono c now _ h hc)
        | none =>
            simp only [hcur]
            exact listInv_append_assistant c now _ h hc _ rfl rfl
      · exact listInv_mono c now _ h hc
  | responseDone out =>
      simp only [handleServerEvent]
      cases hcur : st.currentAssistantMessageId with
      | none =>
          cases out <;> simp only [hcur] <;> exact listInv_mono c now _ h hc
      | some cid =>
          cases out with
          | none => simp only [hcur]; exact listInv_mono c now _ h hc
          | some outs =>
              simp only [hcur]
              exact listInv_of_assistantTs_eq now _ _
                (assistantTs_foldl_update outs cid st.messages)
                (listInv_mono c now _ h hc)
  | conversationItemCreated r t =>
      simp only [handleServerEvent]
      split
      · exact listInv_append_assistant c now _ h hc _ rfl rfl
      · exact listInv_mono c now _ h hc
  | unknownEvent => exact listInv_mono c now _ h hc

/-- Processing a trace whose clock values ascend from the invariant's
bound keeps the assistant timestamps sorted. -/
theorem listInv_processEvents (evs : List (Nat × ServerEvent)) (st : ReconcilerState)
    (c : Nat) (h : listInv c st.messages)
    (hch : List.Chain' (· ≤ ·) (c :: evs.map Prod.fst)) :
    (assistantTs (processEvents st evs).messages).Sorted (· ≤ ·) := by
  induction evs generalizing st c with
  | nil => exact h.1
  | cons p rest ih =>
      obtain ⟨t, e⟩ := p
      have hch2 : List.Chain' (· ≤ ·) (c :: t :: rest.map Prod.fst) := by
        simpa using hch
      have hct : c ≤ t := (List.chain'_cons.mp hch2).1
      have hch3 : List.Chain' (· ≤ ·) (t :: rest.map Prod.fst) :=
        (List.chain'_cons.mp hch2).2
      simp only [processEvents, List.foldl_cons]
      exact ih ((handleServerEvent st t e).1) t
        (listInv_handleServerEvent c t st e h hct) hch3

/-- C2 counterexample: a trace respecting per-item causality and
ascending wall-clock times whose final transcript violates same-role
monotonicity — `user-3000` is inserted first; `user-1000` then finds no
assistant message with a greater timestamp and is appended after it. -/
theorem claim2_same_role_monotonic_counterexample :
    perItemCausality [] c2trace = true ∧
    List.Chain' (· ≤ ·) (c2trace.map Prod.fst) ∧
    (processEvents initialReconcilerState c2trace).messages
      = [⟨⟨Role.user, 3000⟩, Role.user, "hi"⟩, ⟨⟨Role.user, 1000⟩, Role.user, "yo"⟩] ∧
    sameRoleMonotoneB (processEvents initialReconcilerState c2trace).messages = false := by
  refine ⟨by decide, ?_, by decide, by decide⟩
  simp [List.Chain', c2trace]

/-- C2 amended: for every inbound trace processed with non-decreasing
clock values, the subsequence of assistant messages of the final
transcript has non-decreasing id-embedded timestamps.  The same-role
guarantee does not extend to pairs of user messages: insertion
positions a user message relative to assistant messages only, so two
user transcriptions completing out of timestamp order land in reversed
order (see the counterexample). -/
theorem claim2_assistant_monotonic_amended (evs : List (Nat × ServerEvent))
    (hch : List.Chain' (· ≤ ·) (evs.map Prod.fst)) :
    (assistantTs (processEvents initialReconcilerState evs).messages).Sorted (· ≤ ·) := by
  have h0 : listInv 0 initialReconcilerState.messages := by
    constructor <;> simp [assistantTs, initialReconcilerState, List.Sorted]
  have hch0 : List.Chain' (· ≤ ·) (0 :: evs.map Prod.fst) := by
    cases hl : evs.map Prod.fst with
    | nil => simp
    | cons a l =>
        rw [hl] at hch
        exact List.chain'_cons.mpr ⟨Nat.zero_le a, hch⟩
  exact listInv_processEvents evs initialReconcilerState 0 h0 hch0

/-- C2 witness: the amended theorem applied to a concrete
causality-respecting trace. -/
theorem claim2_assistant_monotonic_amended_witness :
    List.Chain' (· ≤ ·) (c2trace.map Prod.fst) ∧
    (assistantTs (processEvents initialReconcilerState c2trace).messages).Sorted (· ≤ ·) :=
  ⟨by simp [List.Chain', c2trace],
    claim2_assistant_monotonic_amended c2trace (by simp [List.Chain', c2trace])⟩

/-- C8 witness: the disconnect contract evaluated on a fully live
connected state. -/
theorem claim8_disconnect_idempotent_witness :
    (Hook.disconnect { Hook.initialHookState with
        isConnected := true,
        error := some "boo",
        messages := [⟨⟨Role.assistant, 5⟩, Role.assistant, "hi"⟩],
        currentAssistantMessageId := some ⟨Role.assistant, 5⟩,
        pendingUserMessages := [("x", 3)],
        timerArmed := true,
        connection := some ⟨Hook.RTCConnState.stConnected, false, false, false, false⟩ }).1.error
      = some "boo" :=
  (claim8_disconnect_idempotent { Hook.initialHookState with
      isConnected := true,
      error := some "boo",
      messages := [⟨⟨Role.assistant, 5⟩, Role.assistant, "hi"⟩],
      currentAssistantMessageId := some ⟨Role.assistant, 5⟩,
      pendingUserMessages := [("x", 3)],
      timerArmed := true,
      connection := some ⟨Hook.RTCConnState.stConnected, false, false, false, false⟩ }).2.2.2.2.2.2.1
